import Mathlib

/-!
Verification development for the request-dispatch core of the dotweb HTTP
server (`server.go`).  The Go source is shallowly embedded: the two wrapped
dispatch entry points (`wrapRouterHandle`, `wrapWebSocketHandle`), the
transport demultiplexer (`ServeHTTP` / `checkIsWebSocketRequest`), the
route-registration helper `HiJack` and the access-log formatter `logString`
are translated into executable Lean functions.  User handlers and module
hooks are modelled as descriptions of their observable behaviour (a list of
response actions followed by a normal return or a raised fault), and the
dispatcher is a function producing the event trace, the final response
state, and the deltas it applies to the global request/error counters.
-/

namespace DotWeb

/-- A fault value: a Go panic value, rendered by its textual description. -/
abbrev Fault := String

/-- Result of running user code (a hook or a handler): either a normal
return or an unhandled fault that unwinds to the recovery boundary. -/
inductive Outcome where
  | normal
  | fault (v : Fault)
deriving DecidableEq, Repr

/-- Inbound request metadata, as read by `server.go`.  `url` models
`HttpContext.Url()` / `Request.RequestURI`, `remoteIP` models
`HttpContext.RemoteIP()` (both accessors live in `context.go`, outside the
given source; the spec describes them as read-only derived accessors). -/
structure Request where
  method : String
  proto : String
  url : String
  contentLength : Int
  remoteIP : String
  headers : List (String × String)
deriving DecidableEq, Repr

/-- Modelled from the spec: the `Response` wrapper type lives in
`response.go`, which is not part of the given source.  Per spec section 4.2
it tracks the HTTP status code (default 200 semantics), the cumulative
count of bytes written through the wrapper, and the headers; `sink` records
every string actually written to the underlying byte sink, whether through
the wrapper or directly. -/
structure Response where
  status : Nat
  size : Nat
  headers : List (String × String)
  sink : List String
deriving DecidableEq, Repr

/-- Modelled from the spec: `Response.Reset` rebinds to a fresh sink and
clears status and size (spec section 4.2). -/
def Response.reset : Response :=
  { status := 200, size := 0, headers := [], sink := [] }

/-- Modelled from the spec: `WriteHeader(code)` records the status code. -/
def Response.writeHeader (res : Response) (code : Nat) : Response :=
  { res with status := code }

/-- Modelled from the spec: `Header().Set(k, v)` records a header. -/
def Response.headerSet (res : Response) (k v : String) : Response :=
  { res with headers := (k, v) :: res.headers }

/-- Modelled from the spec: `Write(bytes)` writes through to the sink and
accumulates the byte count into the wrapper's size total. -/
def Response.write (res : Response) (s : String) : Response :=
  { res with sink := res.sink ++ [s], size := res.size + s.length }

/-- Direct write to the underlying sink, bypassing the wrapper: this is
`io.WriteString(httpCtx.Response.writer, ...)` in `server.go` line 174.
The wrapper's byte count is not touched. -/
def Response.sinkWrite (res : Response) (s : String) : Response :=
  { res with sink := res.sink ++ [s] }

/-- The Request Context as far as the dispatch core reads it: the inbound
request, the routing parameters, the Response wrapper and the websocket
flag.  On the websocket path the Go context holds a nil `Response`; the
model stores a dummy reset wrapper there, which is never read because
`logString` branches on `isWebSocket` first. -/
structure HttpContext where
  request : Request
  params : List (String × String)
  response : Response
  isWebSocket : Bool
deriving DecidableEq, Repr

/-- A primitive action user code can perform on the Request Context's
response: write a string through the wrapper, set the status code, or set
a header. -/
inductive CtxAction where
  | writeString (s : String)
  | writeHeader (code : Nat)
  | setHeader (k v : String)
deriving DecidableEq, Repr

def applyAction (res : Response) : CtxAction → Response
  | .writeString s => res.write s
  | .writeHeader c => res.writeHeader c
  | .setHeader k v => res.headerSet k v

def applyActions (res : Response) (as : List CtxAction) : Response :=
  as.foldl applyAction res

/-- Behaviour of one piece of user code (a hook or the user handler): the
response actions it performs, in order, followed by its outcome. -/
structure Prog where
  actions : List CtxAction
  outcome : Outcome
deriving DecidableEq, Repr

/-- HttpModule from `server.go` lines 21-26: a pair of optional hooks. -/
structure HttpModule where
  onBeginRequest : Option Prog
  onEndRequest : Option Prog
deriving DecidableEq, Repr

/-- Observable events of one dispatch, in the order they occur. -/
inductive Event where
  | acquireResponse
  | acquireContext
  | hookBegin (i : Nat)
  | handlerRun
  | hookEnd (i : Nat)
  | invokeExceptionHandler (v : Fault)
  | logError (msg : String)
  | logAccess (line : String)
  | releaseResponse
  | releaseContext
deriving DecidableEq, Repr

/-- Modelled from the spec: `exception.CatchError` (package
`framework/exception`, not in the given source) yields the fault's textual
description, which becomes the error body and the diagnostic record. -/
def catchErrorMsg (v : Fault) : String := v

/-- Modelled from the spec: header-name and default-value constants from
`const.go`, which is not in the given source.  The spec pins only their
roles: a fixed default `Server` name and a UTF-8 plain-text content type. -/
def HeaderServer : String := "Server"

def DefaultServerName : String := "dotweb"

def HeaderContentType : String := "Content-Type"

def CharsetUTF8 : String := "text/plain; charset=utf-8"

/-- Access-log formatter, `server.go` lines 267-295.  Integer rendering
(`convert.Int642String`, `convert.Int2String`, package not in the given
source) is decimal `toString`. -/
def logString (ctx : HttpContext) (timetaken : Int) : String :=
  let reqbytelen := toString ctx.request.contentLength
  let resbytelen := if ctx.isWebSocket then "0" else toString ctx.response.size
  let method := ctx.request.method
  let proto := ctx.request.proto
  let status := if ctx.isWebSocket then "0" else toString ctx.response.status
  let userip := ctx.request.remoteIP
  method ++ " " ++ userip ++ " " ++ proto ++ " " ++ status ++ " " ++
    reqbytelen ++ " " ++ resbytelen ++ " " ++ toString timetaken

/-- Result of one phase of hook/handler execution. -/
structure PhaseResult where
  trace : List Event
  res : Response
  outcome : Outcome
deriving DecidableEq, Repr

/-- One hook phase of the module chain, `server.go` lines 200-204 and
210-214: iterate the modules in registration order, skip absent hooks, run
each present hook; a fault unwinds immediately to the recovery boundary,
skipping the rest of the phase. -/
def runHooks (mk : Nat → Event) (sel : HttpModule → Option Prog) :
    List HttpModule → Nat → Response → PhaseResult
  | [], _, res => ⟨[], res, .normal⟩
  | m :: ms, i, res =>
    match sel m with
    | none => runHooks mk sel ms (i + 1) res
    | some p =>
      let res1 := applyActions res p.actions
      match p.outcome with
      | .fault v => ⟨[mk i], res1, .fault v⟩
      | .normal =>
        let r := runHooks mk sel ms (i + 1) res1
        ⟨mk i :: r.trace, r.res, r.outcome⟩

/-- The main body of the wrapped router handler, `server.go` lines 199-214:
begin hooks, then the user handler, then end hooks, each phase skipped if
an earlier one faulted. -/
def runMain (modules : List HttpModule) (handle : Prog) (res0 : Response) :
    PhaseResult :=
  let b := runHooks .hookBegin (fun m => m.onBeginRequest) modules 0 res0
  match b.outcome with
  | .fault v => ⟨b.trace, b.res, .fault v⟩
  | .normal =>
    let res2 := applyActions b.res handle.actions
    match handle.outcome with
    | .fault v => ⟨b.trace ++ [.handlerRun], res2, .fault v⟩
    | .normal =>
      let e := runHooks .hookEnd (fun m => m.onEndRequest) modules 0 res2
      ⟨b.trace ++ [.handlerRun] ++ e.trace, e.res, e.outcome⟩

/-- The hijack section, `server.go` lines 152-160: when the route is
hijack-flagged and `Hijack()` fails (`hijackResult = some err`), write a
500 status, the UTF-8 content-type header, and the failure text through
the context (`httpCtx.WriteString` writes through the Response wrapper,
per spec sections 2 and 4.2), then fall through to the normal flow. -/
def hijackPhase (isHijack : Bool) (hijackResult : Option String)
    (res : Response) : Response :=
  if isHijack then
    match hijackResult with
    | some err =>
      Response.write
        (Response.headerSet (Response.writeHeader res 500)
          HeaderContentType CharsetUTF8) err
    | none => res
  else res

/-- Result of the deferred block of `wrapRouterHandle`. -/
structure DeferResult where
  trace : List Event
  res : Response
  errorDelta : Nat
deriving DecidableEq, Repr

/-- The deferred recovery/logging/release block, `server.go` lines 163-197.
If a fault was recovered: invoke the configured exception handler
(modelled by its response actions) or else write a 500 status, the UTF-8
content-type header, and the fault text directly to the underlying sink;
emit the error diagnostic; count one error.  In every case emit one access
log line and release the pooled objects. -/
def deferredPhase (excHandler : Option (List CtxAction))
    (recovered : Option Fault) (ctx : HttpContext) (timetaken : Int) :
    DeferResult :=
  match recovered with
  | none =>
    ⟨[.logAccess (ctx.request.url ++ " " ++ logString ctx timetaken),
      .releaseResponse, .releaseContext], ctx.response, 0⟩
  | some v =>
    let errmsg := catchErrorMsg v
    let step :=
      match excHandler with
      | some acts =>
        (([Event.invokeExceptionHandler v] : List Event),
          applyActions ctx.response acts)
      | none =>
        (([] : List Event),
          Response.sinkWrite
            (Response.headerSet (Response.writeHeader ctx.response 500)
              HeaderContentType CharsetUTF8) errmsg)
    let ctx1 := { ctx with response := step.2 }
    ⟨step.1 ++ [.logError errmsg,
      .logAccess (ctx1.request.url ++ " " ++ logString ctx1 timetaken),
      .releaseResponse, .releaseContext], step.2, 1⟩

/-- Full observable result of dispatching one request.  `requestDelta` and
`errorDelta` are the amounts added to the global counters
(`GlobalState.AddRequestCount` / `AddErrorCount`, package `state`, which
the spec describes as atomic monotone counters).  `propagated` is the
fault, if any, that escapes the dispatcher; `recover()` catches every
fault, so it is always `none`. -/
structure DispatchResult where
  trace : List Event
  res : Response
  requestDelta : Nat
  errorDelta : Nat
  propagated : Option Fault
deriving DecidableEq, Repr

/-- The wrapped router handler, `server.go` lines 143-219: acquire and
reset the pooled Response and HttpContext, run the hijack section, run the
hook/handler body, and on every exit path run the deferred block; the
request counter is bumped only when the body reaches its end without a
fault (line 217). -/
def wrapRouterHandle (modules : List HttpModule)
    (excHandler : Option (List CtxAction)) (handle : Prog)
    (isHijack : Bool) (hijackResult : Option String)
    (req : Request) (params : List (String × String)) (timetaken : Int) :
    DispatchResult :=
  let res1 := hijackPhase isHijack hijackResult Response.reset
  let main := runMain modules handle res1
  let recovered := match main.outcome with
    | .normal => none
    | .fault v => some v
  let requestDelta := match main.outcome with
    | .normal => 1
    | .fault _ => 0
  let ctx1 : HttpContext :=
    { request := req, params := params, response := main.res,
      isWebSocket := false }
  let d := deferredPhase excHandler recovered ctx1 timetaken
  { trace := [.acquireResponse, .acquireContext] ++ main.trace ++ d.trace,
    res := d.res, requestDelta := requestDelta, errorDelta := d.errorDelta,
    propagated := none }

/-- The wrapped websocket handler, `server.go` lines 222-264: acquire and
reset only the pooled HttpContext (the Go code resets it with a nil
Response, modelled as a dummy reset wrapper that `logString` never reads),
run the user handler, and in the deferred block recover any fault (count
one error, emit the diagnostic), emit one access log line and release the
context.  The request counter bump (line 262) sits in the main body after
the handler call, so a faulting handler skips it. -/
def wrapWebSocketHandle (handle : Outcome) (req : Request)
    (timetaken : Int) : DispatchResult :=
  let ctx : HttpContext :=
    { request := req, params := [], response := Response.reset,
      isWebSocket := true }
  match handle with
  | .normal =>
    { trace := [.acquireContext, .handlerRun,
        .logAccess (ctx.request.url ++ " " ++ logString ctx timetaken),
        .releaseContext],
      res := ctx.response, requestDelta := 1, errorDelta := 0,
      propagated := none }
  | .fault v =>
    { trace := [.acquireContext, .handlerRun, .logError (catchErrorMsg v),
        .logAccess (ctx.request.url ++ " " ++ logString ctx timetaken),
        .releaseContext],
      res := ctx.response, requestDelta := 0, errorDelta := 1,
      propagated := none }

/-- First value of a header key, as Go's `req.Header.Get` returns it (keys
assumed canonical); the empty string when the key is absent. -/
def headerGet (hs : List (String × String)) (k : String) : String :=
  match hs.find? (fun p => p.1 == k) with
  | some p => p.2
  | none => ""

/-- The websocket classification check, `server.go` lines 298-303. -/
def checkIsWebSocketRequest (req : Request) : Bool :=
  headerGet req.headers "Connection" == "Upgrade"

inductive DispatchPath where
  | websocket
  | standard
deriving DecidableEq, Repr

/-- The transport demultiplexer `ServeHTTP`, `server.go` lines 67-76:
classify the request and, on the standard path, set the default `Server`
header before handing the request to the router.  The result is the chosen
path and the headers set on the raw response writer. -/
def ServeHTTP (req : Request) : DispatchPath × List (String × String) :=
  if checkIsWebSocketRequest req then
    (.websocket, [])
  else
    (.standard, [(HeaderServer, DefaultServerName)])

/-- A routing-table entry as registered on the external router. -/
structure Route where
  method : String
  path : String
  isHijack : Bool
deriving DecidableEq, Repr

/-- The `HiJack` registration helper, `server.go` lines 121-123: it
registers the wrapped handler under the HTTP method `"GET"` only. -/
def HiJack (routes : List Route) (path : String) : List Route :=
  routes ++ [{ method := "GET", path := path, isHijack := true }]

/-- Modelled from the spec: the external router collaborator (spec section
6) looks up an entry by exact method and path. -/
def routeMatches (r : Route) (method path : String) : Bool :=
  r.method == method && r.path == path

/-- The nominal hook-event sequence of one phase: one event per module
whose selected hook is present, in registration order. -/
def hookSeq (mk : Nat → Event) (sel : HttpModule → Option Prog) :
    List HttpModule → Nat → List Event
  | [], _ => []
  | m :: ms, i =>
    match sel m with
    | none => hookSeq mk sel ms (i + 1)
    | some _ => mk i :: hookSeq mk sel ms (i + 1)

def beginSeq (modules : List HttpModule) : List Event :=
  hookSeq .hookBegin (fun m => m.onBeginRequest) modules 0

def endSeq (modules : List HttpModule) : List Event :=
  hookSeq .hookEnd (fun m => m.onEndRequest) modules 0

/-- The full nominal invocation sequence of a non-faulting request. -/
def nominalSeq (modules : List HttpModule) : List Event :=
  beginSeq modules ++ [.handlerRun] ++ endSeq modules

/-- Whether an event is a hook or handler invocation. -/
def isInvocation : Event → Bool
  | .hookBegin _ => true
  | .handlerRun => true
  | .hookEnd _ => true
  | _ => false

/-- The invocation events of a trace, in order. -/
def invocs (t : List Event) : List Event := t.filter isInvocation

/-- The access-log lines of a trace, in order. -/
def accessLines (t : List Event) : List String :=
  t.filterMap fun e =>
    match e with
    | .logAccess s => some s
    | _ => none

/-- Sample request used for concrete witnesses. -/
def reqPing : Request :=
  { method := "GET", proto := "HTTP/1.1", url := "/ping",
    contentLength := 0, remoteIP := "1.2.3.4", headers := [] }

/-! Helper lemmas.  These connect the executable dispatcher to the
trace-level statements of the claims. -/

theorem strAppend_assoc (a b c : String) : a ++ b ++ c = a ++ (b ++ c) := by
  cases a with | mk da =>
  cases b with | mk db =>
  cases c with | mk dc =>
  show String.mk (da ++ db ++ dc) = String.mk (da ++ (db ++ dc))
  rw [List.append_assoc]

theorem runHooks_shape (mk : Nat → Event) (sel : HttpModule → Option Prog)
    (ms : List HttpModule) :
    ∀ i res, ∀ e ∈ (runHooks mk sel ms i res).trace, ∃ j, e = mk j := by
  induction ms with
  | nil => intro i res e he; simp [runHooks] at he
  | cons m ms ih =>
    intro i res e he
    cases hsel : sel m with
    | none =>
      simp only [runHooks, hsel] at he
      exact ih (i + 1) res e he
    | some p =>
      obtain ⟨acts, oc⟩ := p
      cases oc with
      | fault v =>
        simp only [runHooks, hsel] at he
        simp at he
        exact ⟨i, he⟩
      | normal =>
        simp only [runHooks, hsel] at he
        simp at he
        rcases he with rfl | he
        · exact ⟨i, rfl⟩
        · exact ih (i + 1) _ e he

theorem runHooks_of_normal (mk : Nat → Event) (sel : HttpModule → Option Prog)
    (ms : List HttpModule) :
    ∀ i res, (runHooks mk sel ms i res).outcome = .normal →
      (runHooks mk sel ms i res).trace = hookSeq mk sel ms i := by
  induction ms with
  | nil => intro i res _; simp [runHooks, hookSeq]
  | cons m ms ih =>
    intro i res h
    cases hsel : sel m with
    | none =>
      simp only [runHooks, hookSeq, hsel]
      simp only [runHooks, hsel] at h
      exact ih (i + 1) res h
    | some p =>
      obtain ⟨acts, oc⟩ := p
      cases oc with
      | fault v => simp only [runHooks, hsel] at h; simp at h
      | normal =>
        simp only [runHooks, hookSeq, hsel] at h ⊢
        simp at h ⊢
        exact ih (i + 1) _ h

theorem runHooks_take (mk : Nat → Event) (sel : HttpModule → Option Prog)
    (ms : List HttpModule) :
    ∀ i res, ∃ k, k ≤ (hookSeq mk sel ms i).length ∧
      (runHooks mk sel ms i res).trace = (hookSeq mk sel ms i).take k := by
  induction ms with
  | nil => intro i res; exact ⟨0, by simp [runHooks, hookSeq]⟩
  | cons m ms ih =>
    intro i res
    cases hsel : sel m with
    | none =>
      simp only [runHooks, hookSeq, hsel]
      exact ih (i + 1) res
    | some p =>
      obtain ⟨acts, oc⟩ := p
      cases oc with
      | fault v =>
        refine ⟨1, ?_, ?_⟩ <;> simp [runHooks, hookSeq, hsel]
      | normal =>
        obtain ⟨k, hk, htr⟩ := ih (i + 1) (applyActions res acts)
        refine ⟨k + 1, ?_, ?_⟩ <;>
          simp [runHooks, hookSeq, hsel, hk, htr]

theorem runHooks_res_indep (mk : Nat → Event) (sel : HttpModule → Option Prog)
    (ms : List HttpModule) :
    ∀ i res res2,
      (runHooks mk sel ms i res).trace = (runHooks mk sel ms i res2).trace ∧
      (runHooks mk sel ms i res).outcome = (runHooks mk sel ms i res2).outcome := by
  induction ms with
  | nil => intro i res res2; simp [runHooks]
  | cons m ms ih =>
    intro i res res2
    cases hsel : sel m with
    | none =>
      simp only [runHooks, hsel]
      exact ih (i + 1) res res2
    | some p =>
      obtain ⟨acts, oc⟩ := p
      cases oc with
      | fault v => simp [runHooks, hsel]
      | normal =>
        simp only [runHooks, hsel]
        have := ih (i + 1) (applyActions res acts) (applyActions res2 acts)
        simp [this.1, this.2]

theorem runMain_begin_fault {modules : List HttpModule} {handle : Prog}
    {res0 : Response} {v : Fault}
    (hb : (runHooks Event.hookBegin (fun m => m.onBeginRequest) modules 0 res0).outcome = .fault v) :
    runMain modules handle res0 =
      ⟨(runHooks Event.hookBegin (fun m => m.onBeginRequest) modules 0 res0).trace,
       (runHooks Event.hookBegin (fun m => m.onBeginRequest) modules 0 res0).res,
       .fault v⟩ := by
  simp only [runMain, hb]

theorem runMain_handler_fault {modules : List HttpModule} {handle : Prog}
    {res0 : Response} {v : Fault}
    (hb : (runHooks Event.hookBegin (fun m => m.onBeginRequest) modules 0 res0).outcome = .normal)
    (hh : handle.outcome = .fault v) :
    runMain modules handle res0 =
      ⟨(runHooks Event.hookBegin (fun m => m.onBeginRequest) modules 0 res0).trace ++ [.handlerRun],
       applyActions (runHooks Event.hookBegin (fun m => m.onBeginRequest) modules 0 res0).res handle.actions,
       .fault v⟩ := by
  simp only [runMain, hb, hh]

theorem runMain_past_handler {modules : List HttpModule} {handle : Prog}
    {res0 : Response}
    (hb : (runHooks Event.hookBegin (fun m => m.onBeginRequest) modules 0 res0).outcome = .normal)
    (hh : handle.outcome = .normal) :
    runMain modules handle res0 =
      ⟨(runHooks Event.hookBegin (fun m => m.onBeginRequest) modules 0 res0).trace ++ [.handlerRun] ++
         (runHooks Event.hookEnd (fun m => m.onEndRequest) modules 0
           (applyActions (runHooks Event.hookBegin (fun m => m.onBeginRequest) modules 0 res0).res handle.actions)).trace,
       (runHooks Event.hookEnd (fun m => m.onEndRequest) modules 0
         (applyActions (runHooks Event.hookBegin (fun m => m.onBeginRequest) modules 0 res0).res handle.actions)).res,
       (runHooks Event.hookEnd (fun m => m.onEndRequest) modules 0
         (applyActions (runHooks Event.hookBegin (fun m => m.onBeginRequest) modules 0 res0).res handle.actions)).outcome⟩ := by
  simp only [runMain, hb, hh]

theorem runMain_shape (modules : List HttpModule) (handle : Prog)
    (res0 : Response) :
    ∀ e ∈ (runMain modules handle res0).trace, isInvocation e = true := by
  intro e he
  rcases hb : (runHooks Event.hookBegin (fun m => m.onBeginRequest) modules 0 res0).outcome with _ | v
  · rcases hh : handle.outcome with _ | v
    · rw [runMain_past_handler hb hh] at he
      simp only [List.append_assoc, List.mem_append, List.mem_cons,
        List.not_mem_nil, or_false] at he
      rcases he with he | rfl | he
      · obtain ⟨j, rfl⟩ := runHooks_shape _ _ _ _ _ e he
        rfl
      · rfl
      · obtain ⟨j, rfl⟩ := runHooks_shape _ _ _ _ _ e he
        rfl
    · rw [runMain_handler_fault hb hh] at he
      simp at he
      rcases he with he | rfl
      · obtain ⟨j, rfl⟩ := runHooks_shape _ _ _ _ _ e he
        rfl
      · rfl
  · rw [runMain_begin_fault hb] at he
    have he2 : e ∈ (runHooks Event.hookBegin (fun m => m.onBeginRequest) modules 0 res0).trace := he
    obtain ⟨j, rfl⟩ := runHooks_shape Event.hookBegin (fun m => m.onBeginRequest) modules 0 res0 e he2
    rfl

theorem runMain_of_normal (modules : List HttpModule) (handle : Prog)
    (res0 : Response)
    (h : (runMain modules handle res0).outcome = .normal) :
    (runMain modules handle res0).trace = nominalSeq modules := by
  rcases hb : (runHooks Event.hookBegin (fun m => m.onBeginRequest) modules 0 res0).outcome with _ | v
  · rcases hh : handle.outcome with _ | v
    · rw [runMain_past_handler hb hh] at h ⊢
      simp only at h ⊢
      rw [nominalSeq, beginSeq, endSeq,
        runHooks_of_normal _ _ _ _ _ hb, runHooks_of_normal _ _ _ _ _ h]
    · rw [runMain_handler_fault hb hh] at h
      simp at h
  · rw [runMain_begin_fault hb] at h
    simp at h

theorem runMain_take (modules : List HttpModule) (handle : Prog)
    (res0 : Response) :
    ∃ k, (runMain modules handle res0).trace = (nominalSeq modules).take k := by
  rcases hb : (runHooks Event.hookBegin (fun m => m.onBeginRequest) modules 0 res0).outcome with _ | v
  · rcases hh : handle.outcome with _ | v
    · obtain ⟨k, hk, htr⟩ :=
        runHooks_take Event.hookEnd (fun m => m.onEndRequest) modules 0
          (applyActions (runHooks Event.hookBegin (fun m => m.onBeginRequest) modules 0 res0).res handle.actions)
      refine ⟨(beginSeq modules ++ [Event.handlerRun]).length + k, ?_⟩
      rw [runMain_past_handler hb hh]
      simp only [nominalSeq, List.take_append]
      rw [runHooks_of_normal _ _ _ _ _ hb]
      simp only [beginSeq, endSeq] at htr ⊢
      rw [htr]
    · refine ⟨(beginSeq modules ++ [Event.handlerRun]).length + 0, ?_⟩
      rw [runMain_handler_fault hb hh]
      simp only [nominalSeq, List.take_append]
      rw [runHooks_of_normal _ _ _ _ _ hb]
      simp [beginSeq]
  · obtain ⟨k, hk, htr⟩ :=
      runHooks_take Event.hookBegin (fun m => m.onBeginRequest) modules 0 res0
    refine ⟨k, ?_⟩
    rw [runMain_begin_fault hb]
    simp only [nominalSeq]
    rw [List.take_append_eq_append_take, List.take_append_eq_append_take]
    simp only [beginSeq] at htr ⊢
    rw [htr]
    have h1 : k - (hookSeq Event.hookBegin (fun m => m.onBeginRequest) modules 0).length = 0 := by
      omega
    have h2 : k - ((hookSeq Event.hookBegin (fun m => m.onBeginRequest) modules 0).length + 1) = 0 := by
      omega
    simp [h1, h2]

theorem runMain_res_indep (modules : List HttpModule) (handle : Prog)
    (res0 res0b : Response) :
    (runMain modules handle res0).trace = (runMain modules handle res0b).trace ∧
    (runMain modules handle res0).outcome = (runMain modules handle res0b).outcome := by
  obtain ⟨hbt, hbo⟩ :=
    runHooks_res_indep Event.hookBegin (fun m => m.onBeginRequest) modules 0 res0 res0b
  rcases hb : (runHooks Event.hookBegin (fun m => m.onBeginRequest) modules 0 res0).outcome with _ | v
  · rcases hh : handle.outcome with _ | v
    · obtain ⟨het, heo⟩ :=
        runHooks_res_indep Event.hookEnd (fun m => m.onEndRequest) modules 0
          (applyActions (runHooks Event.hookBegin (fun m => m.onBeginRequest) modules 0 res0).res handle.actions)
          (applyActions (runHooks Event.hookBegin (fun m => m.onBeginRequest) modules 0 res0b).res handle.actions)
      rw [runMain_past_handler hb hh, runMain_past_handler (hbo ▸ hb) hh]
      simp only
      exact ⟨by rw [hbt, het], heo⟩
    · rw [runMain_handler_fault hb hh, runMain_handler_fault (hbo ▸ hb) hh]
      simp [hbt]
  · rw [runMain_begin_fault hb, runMain_begin_fault (hbo ▸ hb)]
    simp [hbt]

/-- Whether an event touches the object pool. -/
def isPoolEvent : Event → Bool
  | .acquireResponse => true
  | .acquireContext => true
  | .releaseResponse => true
  | .releaseContext => true
  | _ => false

theorem deferred_no_invoc (exc : Option (List CtxAction)) (rec : Option Fault)
    (ctx : HttpContext) (t : Int) :
    ∀ e ∈ (deferredPhase exc rec ctx t).trace, isInvocation e = false := by
  intro e he
  cases rec with
  | none =>
    simp [deferredPhase] at he
    rcases he with rfl | rfl | rfl <;> rfl
  | some v =>
    cases exc with
    | none =>
      simp [deferredPhase] at he
      rcases he with rfl | rfl | rfl | rfl <;> rfl
    | some acts =>
      simp [deferredPhase] at he
      rcases he with rfl | rfl | rfl | rfl | rfl <;> rfl

theorem deferred_split (exc : Option (List CtxAction)) (rec : Option Fault)
    (ctx : HttpContext) (t : Int) :
    ∃ pre, (deferredPhase exc rec ctx t).trace =
        pre ++ [Event.releaseResponse, Event.releaseContext] ∧
      ∀ e ∈ pre, isPoolEvent e = false := by
  cases rec with
  | none =>
    refine ⟨[.logAccess (ctx.request.url ++ " " ++ logString ctx t)], by simp [deferredPhase], ?_⟩
    intro e he
    simp at he
    subst he
    rfl
  | some v =>
    cases exc with
    | none =>
      refine ⟨[.logError (catchErrorMsg v),
        .logAccess (ctx.request.url ++ " " ++
          logString { ctx with response := (deferredPhase none (some v) ctx t).res } t)],
        by simp [deferredPhase], ?_⟩
      intro e he
      simp at he
      rcases he with rfl | rfl <;> rfl
    | some acts =>
      refine ⟨[.invokeExceptionHandler v, .logError (catchErrorMsg v),
        .logAccess (ctx.request.url ++ " " ++
          logString { ctx with response := (deferredPhase (some acts) (some v) ctx t).res } t)],
        by simp [deferredPhase], ?_⟩
      intro e he
      simp at he
      rcases he with rfl | rfl | rfl <;> rfl

theorem deferred_accessLines (exc : Option (List CtxAction)) (rec : Option Fault)
    (ctx : HttpContext) (t : Int) :
    accessLines (deferredPhase exc rec ctx t).trace =
      [ctx.request.url ++ " " ++
        logString { ctx with response := (deferredPhase exc rec ctx t).res } t] := by
  cases rec with
  | none => simp [deferredPhase, accessLines]
  | some v =>
    cases exc with
    | none => simp [deferredPhase, accessLines]
    | some acts => simp [deferredPhase, accessLines]

theorem deferred_errorDelta (exc : Option (List CtxAction)) (rec : Option Fault)
    (ctx : HttpContext) (t : Int) :
    (deferredPhase exc rec ctx t).errorDelta =
      match rec with
      | none => 0
      | some _ => 1 := by
  cases rec with
  | none => rfl
  | some v => cases exc <;> rfl

/-- Go recover as a value: the fault carried by a non-normal outcome. -/
def faultOf : Outcome → Option Fault
  | .normal => none
  | .fault v => some v

/-- Request-counter delta decided at the end of the main body. -/
def countOf : Outcome → Nat
  | .normal => 1
  | .fault _ => 0

theorem wrapRouterHandle_eq (modules : List HttpModule)
    (exc : Option (List CtxAction)) (handle : Prog) (hj : Bool)
    (hr : Option String) (req : Request) (params : List (String × String))
    (t : Int) :
    wrapRouterHandle modules exc handle hj hr req params t =
      { trace := [Event.acquireResponse, Event.acquireContext] ++
          (runMain modules handle (hijackPhase hj hr Response.reset)).trace ++
          (deferredPhase exc
            (faultOf (runMain modules handle (hijackPhase hj hr Response.reset)).outcome)
            ⟨req, params, (runMain modules handle (hijackPhase hj hr Response.reset)).res, false⟩
            t).trace,
        res := (deferredPhase exc
            (faultOf (runMain modules handle (hijackPhase hj hr Response.reset)).outcome)
            ⟨req, params, (runMain modules handle (hijackPhase hj hr Response.reset)).res, false⟩
            t).res,
        requestDelta := countOf (runMain modules handle (hijackPhase hj hr Response.reset)).outcome,
        errorDelta := (deferredPhase exc
            (faultOf (runMain modules handle (hijackPhase hj hr Response.reset)).outcome)
            ⟨req, params, (runMain modules handle (hijackPhase hj hr Response.reset)).res, false⟩
            t).errorDelta,
        propagated := none } := by
  simp only [wrapRouterHandle, faultOf, countOf]

theorem invocs_runMain (modules : List HttpModule) (handle : Prog)
    (res0 : Response) :
    invocs (runMain modules handle res0).trace = (runMain modules handle res0).trace := by
  rw [invocs, List.filter_eq_self]
  exact runMain_shape modules handle res0

theorem invocs_deferred (exc : Option (List CtxAction)) (rec : Option Fault)
    (ctx : HttpContext) (t : Int) :
    invocs (deferredPhase exc rec ctx t).trace = [] := by
  rw [invocs, List.filter_eq_nil_iff]
  intro e he
  simp [deferred_no_invoc exc rec ctx t e he]

theorem invocs_wrapRouter (modules : List HttpModule)
    (exc : Option (List CtxAction)) (handle : Prog) (hj : Bool)
    (hr : Option String) (req : Request) (params : List (String × String))
    (t : Int) :
    invocs (wrapRouterHandle modules exc handle hj hr req params t).trace =
      (runMain modules handle (hijackPhase hj hr Response.reset)).trace := by
  rw [wrapRouterHandle_eq]
  simp only [invocs, List.filter_append]
  rw [← invocs, ← invocs, ← invocs, invocs_runMain, invocs_deferred]
  simp [invocs, isInvocation]

theorem accessLine_std (req : Request) (params : List (String × String))
    (R : Response) (t : Int) :
    req.url ++ " " ++ logString ⟨req, params, R, false⟩ t =
      req.url ++ " " ++ req.method ++ " " ++ req.remoteIP ++ " " ++
        req.proto ++ " " ++ toString R.status ++ " " ++
        toString req.contentLength ++ " " ++ toString R.size ++ " " ++
        toString t := by
  simp [logString, strAppend_assoc]

theorem accessLine_ws (req : Request) (params : List (String × String))
    (R : Response) (t : Int) :
    req.url ++ " " ++ logString ⟨req, params, R, true⟩ t =
      req.url ++ " " ++ req.method ++ " " ++ req.remoteIP ++ " " ++
        req.proto ++ " " ++ "0" ++ " " ++
        toString req.contentLength ++ " " ++ "0" ++ " " ++
        toString t := by
  simp [logString, strAppend_assoc]

theorem invoc_not_pool (e : Event) (h : isInvocation e = true) :
    isPoolEvent e = false := by
  cases e <;> simp [isInvocation, isPoolEvent] at h ⊢

theorem accessLines_runMain (modules : List HttpModule) (handle : Prog)
    (res0 : Response) :
    accessLines (runMain modules handle res0).trace = [] := by
  rw [accessLines, List.filterMap_eq_nil_iff]
  intro e he
  have h := runMain_shape modules handle res0 e he
  cases e <;> simp_all [isInvocation]

/-- C2: on the standard dispatch path the global request counter is bumped
by 1 exactly when the hook/handler body completes without an unhandled
fault; a faulting request leaves it unchanged. -/
theorem c2_requestCount_nonfault_only (modules : List HttpModule)
    (exc : Option (List CtxAction)) (handle : Prog) (hj : Bool)
    (hr : Option String) (req : Request) (params : List (String × String))
    (t : Int) :
    (wrapRouterHandle modules exc handle hj hr req params t).requestDelta =
      if (runMain modules handle (hijackPhase hj hr Response.reset)).outcome = Outcome.normal
      then 1 else 0 := by
  rw [wrapRouterHandle_eq]
  cases h : (runMain modules handle (hijackPhase hj hr Response.reset)).outcome <;>
    simp [countOf, h]

/-- C1 (counterexample): a websocket request whose handler raises a
recovered fault does not increment the global request counter at all, so
the claimed increment of exactly 1 on every completion fails. -/
theorem c1_counterexample :
    (wrapWebSocketHandle (Outcome.fault "boom") reqPing 0).requestDelta ≠ 1 := by
  decide

/-- C1 (amended): on the websocket dispatch path the pooled context is
always released exactly once, but the global request counter is bumped by
1 only when the handler returns normally; a recovered fault leaves it
unchanged. -/
theorem c1_websocket_count_release (handle : Outcome) (req : Request)
    (t : Int) :
    (wrapWebSocketHandle handle req t).trace.count Event.releaseContext = 1 ∧
    (wrapWebSocketHandle handle req t).requestDelta = countOf handle := by
  cases handle <;>
    simp [wrapWebSocketHandle, countOf, List.count_cons, List.count_nil]

/-- Exact fault-site characterization of one hook phase: when the phase
faults, some module at position j has the selected hook present and
faulting with that value, the events are exactly the present hooks before
j in order followed by the faulting hook's event, and nothing after. -/
theorem runHooks_fault_split (mk : Nat → Event) (sel : HttpModule → Option Prog)
    (ms : List HttpModule) :
    ∀ i res v, (runHooks mk sel ms i res).outcome = .fault v →
      ∃ j m p, ms[j]? = some m ∧ sel m = some p ∧ p.outcome = .fault v ∧
        (runHooks mk sel ms i res).trace =
          hookSeq mk sel (ms.take j) i ++ [mk (i + j)] := by
  induction ms with
  | nil => intro i res v h; simp [runHooks] at h
  | cons m ms ih =>
    intro i res v h
    cases hsel : sel m with
    | none =>
      simp only [runHooks, hsel] at h ⊢
      obtain ⟨j, m2, p, hj, hsel2, hoc, htr⟩ := ih (i + 1) res v h
      refine ⟨j + 1, m2, p, by simpa using hj, hsel2, hoc, ?_⟩
      rw [htr]
      simp only [List.take_succ_cons, hookSeq, hsel]
      have e1 : i + (j + 1) = i + 1 + j := by omega
      rw [e1]
    | some p =>
      obtain ⟨acts, oc⟩ := p
      cases oc with
      | fault w =>
        simp only [runHooks, hsel] at h ⊢
        simp at h
        subst h
        exact ⟨0, m, ⟨acts, .fault w⟩, by simp, hsel, rfl, by simp [hookSeq]⟩
      | normal =>
        simp only [runHooks, hsel] at h ⊢
        obtain ⟨j, m2, p2, hj, hsel2, hoc, htr⟩ := ih (i + 1) _ v h
        refine ⟨j + 1, m2, p2, by simpa using hj, hsel2, hoc, ?_⟩
        rw [htr]
        simp only [List.take_succ_cons, hookSeq, hsel, List.cons_append]
        have e1 : i + (j + 1) = i + 1 + j := by omega
        rw [e1]

/-- Present begin-hook events of the first j modules, in order. -/
def beginSeqTo (modules : List HttpModule) (j : Nat) : List Event :=
  hookSeq Event.hookBegin (fun m => m.onBeginRequest) (modules.take j) 0

/-- Present end-hook events of the first j modules, in order. -/
def endSeqTo (modules : List HttpModule) (j : Nat) : List Event :=
  hookSeq Event.hookEnd (fun m => m.onEndRequest) (modules.take j) 0

/-- Exact fault-site characterization of the main body: a faulting run
stops at the faulting begin hook (skipping the later begin hooks, the
handler and every end hook), at the faulting handler (skipping every end
hook), or at the faulting end hook (skipping the later end hooks). -/
theorem runMain_fault_split (modules : List HttpModule) (handle : Prog)
    (res0 : Response) (v : Fault)
    (h : (runMain modules handle res0).outcome = Outcome.fault v) :
    (∃ j m p, modules[j]? = some m ∧ m.onBeginRequest = some p ∧
       p.outcome = Outcome.fault v ∧
       (runMain modules handle res0).trace =
         beginSeqTo modules j ++ [Event.hookBegin j]) ∨
    (handle.outcome = Outcome.fault v ∧
       (runMain modules handle res0).trace =
         beginSeq modules ++ [Event.handlerRun]) ∨
    (∃ j m p, modules[j]? = some m ∧ m.onEndRequest = some p ∧
       p.outcome = Outcome.fault v ∧
       (runMain modules handle res0).trace =
         beginSeq modules ++ [Event.handlerRun] ++
           endSeqTo modules j ++ [Event.hookEnd j]) := by
  rcases hb : (runHooks Event.hookBegin (fun m => m.onBeginRequest) modules 0 res0).outcome with _ | w
  · rcases hh : handle.outcome with _ | w
    · rw [runMain_past_handler hb hh] at h ⊢
      simp only at h ⊢
      obtain ⟨j, m, p, hj, hsel, hoc, htr⟩ :=
        runHooks_fault_split Event.hookEnd (fun m => m.onEndRequest) modules 0 _ v h
      refine Or.inr (Or.inr ⟨j, m, p, hj, hsel, hoc, ?_⟩)
      rw [htr, runHooks_of_normal _ _ _ _ _ hb]
      simp [beginSeq, endSeqTo]
    · rw [runMain_handler_fault hb hh] at h ⊢
      simp only at h ⊢
      simp at h
      subst h
      refine Or.inr (Or.inl ⟨rfl, ?_⟩)
      rw [runHooks_of_normal _ _ _ _ _ hb]
      rfl
  · rw [runMain_begin_fault hb] at h ⊢
    simp only at h ⊢
    simp at h
    subst h
    obtain ⟨j, m, p, hj, hsel, hoc, htr⟩ :=
      runHooks_fault_split Event.hookBegin (fun m => m.onBeginRequest) modules 0 res0 w hb
    refine Or.inl ⟨j, m, p, hj, hsel, hoc, ?_⟩
    rw [htr]
    simp [beginSeqTo]

/-- C3: when a hook or the handler raises an unhandled fault on the
standard path, the invocation events stop exactly at the faulting site —
a faulting begin hook at position j runs after only the present begin
hooks before j (no later begin hooks, no handler, no end hooks), a
faulting handler leaves every end hook unrun, and a faulting end hook at
position j leaves every later end hook unrun — the global error counter
is bumped by exactly 1, the configured exception handler is invoked with
the fault (or, absent one, a 500 status, a UTF-8 content-type header and
the fault text are produced), and the fault does not propagate out of the
dispatcher. -/
theorem c3_fault_recovery (modules : List HttpModule)
    (exc : Option (List CtxAction)) (handle : Prog) (hj : Bool)
    (hr : Option String) (req : Request) (params : List (String × String))
    (t : Int) (v : Fault)
    (hfault : (runMain modules handle (hijackPhase hj hr Response.reset)).outcome = Outcome.fault v) :
    (wrapRouterHandle modules exc handle hj hr req params t).errorDelta = 1 ∧
    (wrapRouterHandle modules exc handle hj hr req params t).propagated = none ∧
    ((∃ j m p, modules[j]? = some m ∧ m.onBeginRequest = some p ∧
        p.outcome = Outcome.fault v ∧
        invocs (wrapRouterHandle modules exc handle hj hr req params t).trace =
          beginSeqTo modules j ++ [Event.hookBegin j]) ∨
     (handle.outcome = Outcome.fault v ∧
        invocs (wrapRouterHandle modules exc handle hj hr req params t).trace =
          beginSeq modules ++ [Event.handlerRun]) ∨
     (∃ j m p, modules[j]? = some m ∧ m.onEndRequest = some p ∧
        p.outcome = Outcome.fault v ∧
        invocs (wrapRouterHandle modules exc handle hj hr req params t).trace =
          beginSeq modules ++ [Event.handlerRun] ++
            endSeqTo modules j ++ [Event.hookEnd j])) ∧
    (match exc with
     | some _ =>
        Event.invokeExceptionHandler v ∈
          (wrapRouterHandle modules exc handle hj hr req params t).trace
     | none =>
        (wrapRouterHandle modules exc handle hj hr req params t).res.status = 500 ∧
        (HeaderContentType, CharsetUTF8) ∈
          (wrapRouterHandle modules exc handle hj hr req params t).res.headers ∧
        catchErrorMsg v ∈
          (wrapRouterHandle modules exc handle hj hr req params t).res.sink) := by
  refine ⟨?_, ?_, ?_, ?_⟩
  · rw [wrapRouterHandle_eq]
    simp only
    rw [deferred_errorDelta]
    simp [faultOf, hfault]
  · rw [wrapRouterHandle_eq]
  · rw [invocs_wrapRouter]
    exact runMain_fault_split modules handle (hijackPhase hj hr Response.reset) v hfault
  · cases exc with
    | some acts =>
      rw [wrapRouterHandle_eq]
      simp only [faultOf, hfault]
      simp [deferredPhase]
    | none =>
      rw [wrapRouterHandle_eq]
      simp only [faultOf, hfault]
      refine ⟨?_, ?_, ?_⟩ <;>
        simp [deferredPhase, Response.sinkWrite, Response.headerSet,
          Response.writeHeader]

/-- C3 (witness): concrete faulting handler with no exception handler. -/
theorem c3_fault_recovery_witness :
    (runMain [] ⟨[], Outcome.fault "boom"⟩ (hijackPhase false none Response.reset)).outcome =
      Outcome.fault "boom" ∧
    (wrapRouterHandle [] none ⟨[], Outcome.fault "boom"⟩ false none reqPing [] 0).errorDelta = 1 :=
  ⟨by decide,
   (c3_fault_recovery [] none ⟨[], Outcome.fault "boom"⟩ false none reqPing [] 0 "boom" (by decide)).1⟩

/-- C4: on a non-faulting standard-path request the observed invocation
sequence is exactly every present begin-hook in registration order, then
the handler, then every present end-hook in registration order. -/
theorem c4_hook_order (modules : List HttpModule)
    (exc : Option (List CtxAction)) (handle : Prog) (hj : Bool)
    (hr : Option String) (req : Request) (params : List (String × String))
    (t : Int)
    (hok : (runMain modules handle (hijackPhase hj hr Response.reset)).outcome = Outcome.normal) :
    invocs (wrapRouterHandle modules exc handle hj hr req params t).trace =
      nominalSeq modules := by
  rw [invocs_wrapRouter]
  exact runMain_of_normal _ _ _ hok

/-- C4 (witness): two modules, one with only a begin hook and one with
only an end hook, around a normally returning handler. -/
theorem c4_hook_order_witness :
    (runMain [⟨some ⟨[], Outcome.normal⟩, none⟩, ⟨none, some ⟨[], Outcome.normal⟩⟩]
        ⟨[CtxAction.writeString "ok"], Outcome.normal⟩
        (hijackPhase false none Response.reset)).outcome = Outcome.normal ∧
    invocs (wrapRouterHandle
        [⟨some ⟨[], Outcome.normal⟩, none⟩, ⟨none, some ⟨[], Outcome.normal⟩⟩]
        none ⟨[CtxAction.writeString "ok"], Outcome.normal⟩ false none reqPing [] 0).trace =
      nominalSeq [⟨some ⟨[], Outcome.normal⟩, none⟩, ⟨none, some ⟨[], Outcome.normal⟩⟩] :=
  ⟨by decide,
   c4_hook_order [⟨some ⟨[], Outcome.normal⟩, none⟩, ⟨none, some ⟨[], Outcome.normal⟩⟩]
     none ⟨[CtxAction.writeString "ok"], Outcome.normal⟩ false none reqPing [] 0 (by decide)⟩

/-- C5: every standard-path dispatch acquires exactly one pooled Response
and one pooled Context at the start and releases exactly one of each at
the end, with no other pool traffic in between, on the normal and the
fault-recovery exit path alike. -/
theorem c5_pool_discipline (modules : List HttpModule)
    (exc : Option (List CtxAction)) (handle : Prog) (hj : Bool)
    (hr : Option String) (req : Request) (params : List (String × String))
    (t : Int) :
    ∃ mid, (wrapRouterHandle modules exc handle hj hr req params t).trace =
        [Event.acquireResponse, Event.acquireContext] ++ mid ++
          [Event.releaseResponse, Event.releaseContext] ∧
      ∀ e ∈ mid, isPoolEvent e = false := by
  obtain ⟨pre, hsplit, hpre⟩ :=
    deferred_split exc
      (faultOf (runMain modules handle (hijackPhase hj hr Response.reset)).outcome)
      ⟨req, params, (runMain modules handle (hijackPhase hj hr Response.reset)).res, false⟩ t
  refine ⟨(runMain modules handle (hijackPhase hj hr Response.reset)).trace ++ pre, ?_, ?_⟩
  · rw [wrapRouterHandle_eq]
    simp only
    rw [hsplit]
    simp
  · intro e he
    rcases List.mem_append.mp he with he | he
    · exact invoc_not_pool e (runMain_shape _ _ _ e he)
    · exact hpre e he

/-- C6: a request is routed to the websocket dispatch path exactly when
its Connection header value is the literal, case-sensitive token Upgrade;
every other request gets the default Server header and goes to the
standard router, and the classification ignores the request path. -/
theorem c6_demux (req : Request) (u : String) :
    ((ServeHTTP req).1 = DispatchPath.websocket ↔
      headerGet req.headers "Connection" = "Upgrade") ∧
    (headerGet req.headers "Connection" ≠ "Upgrade" →
      (ServeHTTP req).1 = DispatchPath.standard ∧
      (HeaderServer, DefaultServerName) ∈ (ServeHTTP req).2) ∧
    (ServeHTTP { req with url := u }).1 = (ServeHTTP req).1 := by
  by_cases h : headerGet req.headers "Connection" = "Upgrade" <;>
    simp [ServeHTTP, checkIsWebSocketRequest, h]

/-- C6 (witness): a plain request with no Connection header goes to the
standard router and receives the default Server header. -/
theorem c6_demux_witness :
    headerGet reqPing.headers "Connection" ≠ "Upgrade" ∧
    ((ServeHTTP reqPing).1 = DispatchPath.standard ∧
      (HeaderServer, DefaultServerName) ∈ (ServeHTTP reqPing).2) :=
  ⟨by decide, ((c6_demux reqPing "/x").2).1 (by decide)⟩

/-- C7: on a hijack-flagged route whose Hijack call fails, the dispatcher
records a 500 status, the UTF-8 content-type header and the failure text
on the response, and the invocation events of the request are the same as
those of an un-hijacked dispatch: the hooks and the handler still run. -/
theorem c7_hijack_degrade (err : String) (modules : List HttpModule)
    (exc : Option (List CtxAction)) (handle : Prog) (req : Request)
    (params : List (String × String)) (t : Int) :
    (hijackPhase true (some err) Response.reset).status = 500 ∧
    (HeaderContentType, CharsetUTF8) ∈ (hijackPhase true (some err) Response.reset).headers ∧
    err ∈ (hijackPhase true (some err) Response.reset).sink ∧
    invocs (wrapRouterHandle modules exc handle true (some err) req params t).trace =
      invocs (wrapRouterHandle modules exc handle false none req params t).trace := by
  refine ⟨?_, ?_, ?_, ?_⟩
  · simp [hijackPhase, Response.write, Response.headerSet, Response.writeHeader]
  · simp [hijackPhase, Response.write, Response.headerSet, Response.writeHeader]
  · simp [hijackPhase, Response.write, Response.headerSet, Response.writeHeader,
      Response.reset]
  · rw [invocs_wrapRouter, invocs_wrapRouter]
    exact (runMain_res_indep modules handle _ _).1

/-- C8 (counterexample): the emitted access-log line carries the request
URL as an extra leading field, so the emitted line is not the
space-separated join of METHOD REMOTE_IP PROTOCOL STATUS REQ_BYTES
RES_BYTES ELAPSED_MS that the claim states. -/
theorem c8_counterexample :
    accessLines (wrapRouterHandle [] none ⟨[CtxAction.writeString "ok"], Outcome.normal⟩
        false none reqPing [] 7).trace =
      ["/ping GET 1.2.3.4 HTTP/1.1 200 0 2 7"] ∧
    "/ping GET 1.2.3.4 HTTP/1.1 200 0 2 7" ≠
      "GET" ++ " " ++ "1.2.3.4" ++ " " ++ "HTTP/1.1" ++ " " ++ "200" ++ " " ++
        "0" ++ " " ++ "2" ++ " " ++ "7" := by
  constructor
  · decide
  · decide

theorem accessLines_wrapRouter (modules : List HttpModule)
    (exc : Option (List CtxAction)) (handle : Prog) (hj : Bool)
    (hr : Option String) (req : Request) (params : List (String × String))
    (t : Int) :
    accessLines (wrapRouterHandle modules exc handle hj hr req params t).trace =
      [req.url ++ " " ++ req.method ++ " " ++ req.remoteIP ++ " " ++
        req.proto ++ " " ++
        toString (wrapRouterHandle modules exc handle hj hr req params t).res.status ++ " " ++
        toString req.contentLength ++ " " ++
        toString (wrapRouterHandle modules exc handle hj hr req params t).res.size ++ " " ++
        toString t] := by
  rw [wrapRouterHandle_eq]
  simp only [accessLines, List.filterMap_append]
  rw [← accessLines, ← accessLines, ← accessLines, accessLines_runMain,
    deferred_accessLines]
  rw [← accessLine_std req params
    (deferredPhase exc
      (faultOf (runMain modules handle (hijackPhase hj hr Response.reset)).outcome)
      ⟨req, params, (runMain modules handle (hijackPhase hj hr Response.reset)).res, false⟩ t).res t]
  simp [accessLines]

/-- C8 (amended): every dispatch emits exactly one access-log line, equal
to the request URL followed by METHOD REMOTE_IP PROTOCOL STATUS REQ_BYTES
RES_BYTES ELAPSED_MS, all space-separated; on the websocket path the
STATUS and RES_BYTES fields are both 0. -/
theorem c8_access_line (modules : List HttpModule)
    (exc : Option (List CtxAction)) (handle : Prog) (hj : Bool)
    (hr : Option String) (req : Request) (params : List (String × String))
    (t : Int) (wsHandle : Outcome) (req2 : Request) (t2 : Int) :
    accessLines (wrapRouterHandle modules exc handle hj hr req params t).trace =
      [req.url ++ " " ++ req.method ++ " " ++ req.remoteIP ++ " " ++
        req.proto ++ " " ++
        toString (wrapRouterHandle modules exc handle hj hr req params t).res.status ++ " " ++
        toString req.contentLength ++ " " ++
        toString (wrapRouterHandle modules exc handle hj hr req params t).res.size ++ " " ++
        toString t] ∧
    accessLines (wrapWebSocketHandle wsHandle req2 t2).trace =
      [req2.url ++ " " ++ req2.method ++ " " ++ req2.remoteIP ++ " " ++
        req2.proto ++ " " ++ "0" ++ " " ++
        toString req2.contentLength ++ " " ++ "0" ++ " " ++ toString t2] := by
  constructor
  · exact accessLines_wrapRouter modules exc handle hj hr req params t
  · cases wsHandle <;>
      simp [wrapWebSocketHandle, accessLines, accessLine_ws req2 [] Response.reset t2]

/-- C9: the HiJack registration helper registers the route under the HTTP
method GET only, and a route registered that way matches a lookup exactly
when the method is GET and the path is the registered path. -/
theorem c9_hijack_get_only (routes : List Route) (path : String)
    (m p : String) :
    HiJack routes path = routes ++ [⟨"GET", path, true⟩] ∧
    (routeMatches ⟨"GET", path, true⟩ m p = true ↔ "GET" = m ∧ path = p) := by
  refine ⟨rfl, ?_⟩
  simp [routeMatches]

/-- C10: on the standard path's fault-recovery branch with no exception
handler configured, the fault text is written directly to the underlying
sink, so the Response wrapper's byte count — and hence the RES_BYTES field
of the access-log line — still equals the count accumulated before the
recovery write. -/
theorem c10_error_body_bypasses_wrapper (modules : List HttpModule)
    (handle : Prog) (hj : Bool) (hr : Option String) (req : Request)
    (params : List (String × String)) (t : Int) (v : Fault)
    (hfault : (runMain modules handle (hijackPhase hj hr Response.reset)).outcome = Outcome.fault v) :
    (wrapRouterHandle modules none handle hj hr req params t).res.size =
      (runMain modules handle (hijackPhase hj hr Response.reset)).res.size ∧
    (wrapRouterHandle modules none handle hj hr req params t).res.sink =
      (runMain modules handle (hijackPhase hj hr Response.reset)).res.sink ++
        [catchErrorMsg v] ∧
    accessLines (wrapRouterHandle modules none handle hj hr req params t).trace =
      [req.url ++ " " ++ req.method ++ " " ++ req.remoteIP ++ " " ++
        req.proto ++ " " ++ "500" ++ " " ++
        toString req.contentLength ++ " " ++
        toString (runMain modules handle (hijackPhase hj hr Response.reset)).res.size ++ " " ++
        toString t] := by
  have hsz : (wrapRouterHandle modules none handle hj hr req params t).res.size =
      (runMain modules handle (hijackPhase hj hr Response.reset)).res.size := by
    rw [wrapRouterHandle_eq]
    simp [deferredPhase, faultOf, hfault, Response.sinkWrite,
      Response.headerSet, Response.writeHeader]
  have hst : (wrapRouterHandle modules none handle hj hr req params t).res.status = 500 := by
    rw [wrapRouterHandle_eq]
    simp [deferredPhase, faultOf, hfault, Response.sinkWrite,
      Response.headerSet, Response.writeHeader]
  refine ⟨hsz, ?_, ?_⟩
  · rw [wrapRouterHandle_eq]
    simp [deferredPhase, faultOf, hfault, Response.sinkWrite,
      Response.headerSet, Response.writeHeader]
  · rw [accessLines_wrapRouter, hst, hsz]
    have h500 : toString (500 : Nat) = "500" := by decide
    rw [h500]

/-- C10 (witness): a handler that writes two bytes and then faults, with
no exception handler configured. -/
theorem c10_error_body_bypasses_wrapper_witness :
    (runMain [] ⟨[CtxAction.writeString "ok"], Outcome.fault "boom"⟩
        (hijackPhase false none Response.reset)).outcome = Outcome.fault "boom" ∧
    (wrapRouterHandle [] none ⟨[CtxAction.writeString "ok"], Outcome.fault "boom"⟩
        false none reqPing [] 0).res.size =
      (runMain [] ⟨[CtxAction.writeString "ok"], Outcome.fault "boom"⟩
        (hijackPhase false none Response.reset)).res.size :=
  ⟨by decide,
   (c10_error_body_bypasses_wrapper [] ⟨[CtxAction.writeString "ok"], Outcome.fault "boom"⟩
     false none reqPing [] 0 "boom" (by decide)).1⟩

end DotWeb
